import Mathlib

/-!
Verification of the MDAL format-driver subsystem against its specification.

The development shallowly embeds the two driver `load` algorithms:
  * `DriverEsriTin.load` (src/mdal/frmts/mdal_esri_tin.cpp) — the masked
    multi-file binary driver: the face/mask decoding loop, the index
    compaction pass, and the coordinate/elevation vertex pass.  Binary files
    are modelled as the streams of values that successive `readValue` calls
    yield; a failed `readValue` is the exhausted stream.
  * `Driver2dm.load` (src/mdal/frmts/mdal_2dm.cpp) — the sparse-ID text
    driver: the counting pass, the parsing pass and the face-reference
    resolution pass.  A text line is modelled by its parsed token content
    (the tokenization helpers of mdal_utils are not part of the sources and
    are modelled from the specification where needed).

C++ `throw MDAL_Status` / `catch` at the top of `load` is modelled by the
`Except` monad; `MDAL::Log` warnings are modelled as an accumulated list.
`size_t` arithmetic is modelled by `Nat` with explicit wrap-around where the
source can underflow (`static_cast<size_t>(index - 1)` on a 1-based index).
-/

/-- The MDAL status enumeration (only the members the two drivers use). -/
inductive MDAL_Status where
  | None
  | Err_FileNotFound
  | Err_UnknownFormat
  | Err_InvalidData
  | Err_UnsupportedElement
  | Warn_ElementNotUnique
  | Warn_ElementWithInvalidNode
deriving DecidableEq, Repr

/-! ### ESRI TIN binary driver (mdal_esri_tin.cpp, DriverEsriTin::load) -/

/-- `static_cast<size_t>(index - 1)`: the raw 1-based `int32` index from the
face file converted to a 0-based `size_t`.  An index `≤ 0` wraps around to a
huge value, exactly as the unsigned conversion does. -/
def rawIdx (i : Int) : Nat := ((i - 1).emod (2 ^ 64)).toNat

/-- One mask-word refresh at the top of the face loop:
`if (c % 32 == 0 && c < maskBitsCount) readValue(maskInt, inMsk, true)`.
`Option.none` is the failed `readValue` (which the source turns into
`Err_UnknownFormat`). -/
def refreshStep (mbc : Int) (c : Nat) (st : Int × List Int) : Option (Int × List Int) :=
  if c % 32 = 0 ∧ (c : Int) < mbc then
    match st.2 with
    | [] => Option.none
    | w :: rest => Option.some (w, rest)
  else Option.some st

/-- Marking the raw indexes of a kept face as wanted:
`for (auto ri : f) { if (ri >= totalIndexesCount) throw; rawAndCorrectedIndexesMap[ri] = 1; }` -/
def markWanted (total : Nat) : List Nat → List Nat → Except MDAL_Status (List Nat)
  | [], m => Except.ok m
  | ri :: rest, m =>
    if total ≤ ri then Except.error MDAL_Status.Err_UnknownFormat
    else markWanted total rest (m.set ri 1)

/-- Round 1 of `DriverEsriTin::load`: the `while (true)` loop that reads mask
words (one fresh word per 32 faces while `c < maskBitsCount`), reads three
raw `int32` indexes per candidate face, keeps a face iff the low bit of the
current mask word is 0, marks the kept face's raw indexes in the lookup
table, and right-shifts the mask word after every face.  `fs` is the face
file stream, `ms` the remaining mask words, `c` the face counter, `maskInt`
the current mask word (`int32`; the arithmetic right shift is `Int.ediv · 2`
and the low-bit test `Int.emod · 2`). -/
def faceLoop (total : Nat) (mbc : Int) : List Int → List Int → Nat → Int →
    List (List Nat) → List Nat → Except MDAL_Status (List (List Nat) × List Nat)
  | [], ms, c, maskInt, facesAcc, m =>
    match refreshStep mbc c (maskInt, ms) with
    | Option.none => Except.error MDAL_Status.Err_UnknownFormat
    | Option.some _ => Except.ok (facesAcc, m)
  | [_], ms, c, maskInt, _, _ =>
    match refreshStep mbc c (maskInt, ms) with
    | Option.none => Except.error MDAL_Status.Err_UnknownFormat
    | Option.some _ => Except.error MDAL_Status.Err_UnknownFormat
  | [_, _], ms, c, maskInt, _, _ =>
    match refreshStep mbc c (maskInt, ms) with
    | Option.none => Except.error MDAL_Status.Err_UnknownFormat
    | Option.some _ => Except.error MDAL_Status.Err_UnknownFormat
  | a :: b :: d :: rest, ms, c, maskInt, facesAcc, m =>
    match refreshStep mbc c (maskInt, ms) with
    | Option.none => Except.error MDAL_Status.Err_UnknownFormat
    | Option.some (mi, ms2) =>
      if mi.emod 2 = 0 then
        match markWanted total [rawIdx a, rawIdx b, rawIdx d] m with
        | Except.error e => Except.error e
        | Except.ok m2 =>
          faceLoop total mbc rest ms2 (c + 1) (mi.ediv 2)
            (facesAcc ++ [[rawIdx a, rawIdx b, rawIdx d]]) m2
      else
        faceLoop total mbc rest ms2 (c + 1) (mi.ediv 2) facesAcc m

/-- Round 2 of `DriverEsriTin::load`: the compaction scan.  Every entry
whose value is `< totalIndexesCount` is rewritten to the next dense index
(`correctedIndexCount++`); other entries are left unchanged.  Returns the
rewritten table and the final `correctedIndexCount`. -/
def compact (total : Nat) : List Nat → Nat → List Nat × Nat
  | [], k => ([], k)
  | v :: rest, k =>
    if v < total then
      let p := compact total rest (k + 1)
      (k :: p.1, p.2)
    else
      let p := compact total rest k
      (v :: p.1, p.2)

/-- Round 3 of `DriverEsriTin::load`: the vertex pass.  One record per raw
index: `x` read failure breaks the loop cleanly, a missing `y` or a missing
elevation value is `Err_UnknownFormat`; the record is stored at its dense
index only if the raw index is wanted (`map[rawIndex] < totalIndexesCount`).
`xs` is the flat x,y stream of the coordinate file, `zs` the elevation
stream (the `float → double` upcast is the identity on the modelled
values). -/
def vertexLoop (total : Nat) (m : List Nat) : Nat → List Int → List Int →
    List (Int × Int × Int) → Except MDAL_Status (List (Int × Int × Int))
  | _, [], _, verts => Except.ok verts
  | rawIndex, [_], _, verts =>
    if rawIndex < m.length then Except.error MDAL_Status.Err_UnknownFormat
    else Except.ok verts
  | rawIndex, x :: y :: xs2, zs, verts =>
    if rawIndex < m.length then
      match zs with
      | [] => Except.error MDAL_Status.Err_UnknownFormat
      | z :: zs2 =>
        vertexLoop total m (rawIndex + 1) xs2 zs2
          (if m.getD rawIndex 0 < total then verts.set (m.getD rawIndex 0) (x, y, z) else verts)
    else Except.ok verts

/-- The streams `DriverEsriTin::load` consumes: the header count from
tdenv.adf, the mask-bit count from tmsk.adf, the mask words, the face file,
the flat x,y coordinate stream and the elevation stream. -/
structure TinInput where
  total : Nat
  mbc : Int
  maskWords : List Int
  faceStream : List Int
  xyStream : List Int
  zStream : List Int
deriving DecidableEq, Repr

/-- The mesh the binary driver produces: triangular faces over dense vertex
indexes, and the compacted vertex container. -/
structure TinMesh where
  faces : List (List Nat)
  vertices : List (Int × Int × Int)
deriving DecidableEq, Repr

/-- `DriverEsriTin::load`: round 1 (faces and mask), round 2 (compaction),
round 3 (vertices, container pre-sized to `correctedIndexCount` of
default-constructed vertices), round 4 (face indexes rewritten through the
compacted table). -/
def DriverEsriTin.load (inp : TinInput) : Except MDAL_Status TinMesh :=
  match faceLoop inp.total inp.mbc inp.faceStream inp.maskWords 0 0 []
      (List.replicate inp.total inp.total) with
  | Except.error e => Except.error e
  | Except.ok (faces, m) =>
    match vertexLoop inp.total (compact inp.total m 0).1 0 inp.xyStream inp.zStream
        (List.replicate (compact inp.total m 0).2 (0, 0, 0)) with
    | Except.error e => Except.error e
    | Except.ok verts =>
      Except.ok ⟨faces.map (fun f => f.map (fun fi => (compact inp.total m 0).1.getD fi 0)),
                 verts⟩

/-! #### The mask-bit discipline, stated independently of the face loop

`maskPre mbc ws c` is the mask state (current word, remaining words) on
entry to iteration `c`, before the refresh check: the word is right-shifted
once per face regardless of whether the face was kept, and a fresh word is
read every 32 faces while `c < maskBitsCount`.  `maskBitAt` is the low bit
the `c`-th face is tested against. -/
def maskPre (mbc : Int) (ws : List Int) : Nat → Option (Int × List Int)
  | 0 => Option.some (0, ws)
  | c + 1 =>
    (maskPre mbc ws c).bind (fun st =>
      (refreshStep mbc c st).map (fun st2 => (st2.1.ediv 2, st2.2)))

/-- The effective mask bit consumed by face `c`: `some true` means masked
(excluded), `some false` means kept, `none` means the mask file is too short
to reach face `c`. -/
def maskBitAt (mbc : Int) (ws : List Int) (c : Nat) : Option Bool :=
  ((maskPre mbc ws c).bind (refreshStep mbc c)).map (fun st => decide (st.1.emod 2 = 1))

/-- The `c`-th candidate face of the face stream, as the raw 0-based indexes
the loop builds. -/
def candFace (fs : List Int) (c : Nat) : List Nat := ((fs.drop (3 * c)).take 3).map rawIdx

/-! ### 2DM text driver (mdal_2dm.cpp) -/

/-- A line of a 2DM file, by its parsed token content.  Tokenization and
numeric parsing live in mdal_utils (not part of the sources); the fields are
the tokens the parsing pass reads, per the format grammar:
`ND <id> <x> <y> <z>`, `E3T <id> <v1> <v2> <v3> <material> [elevation]`,
`E4Q <id> <v1> <v2> <v3> <v4> <material> [elevation]`,
`E2L <id> <v1> <v2> <material>`; `e3l`/`e6t`/`e8q`/`e9q` are lines starting
with the unsupported element tokens, `other` is any other line. -/
inductive Line2dm where
  | nd (id : Nat) (x y z : Int)
  | e3t (id v1 v2 v3 mat : Nat) (elev : Option Int)
  | e4q (id v1 v2 v3 v4 mat : Nat) (elev : Option Int)
  | e2l (id a b mat : Nat)
  | e3l
  | e6t
  | e8q
  | e9q
  | other
deriving DecidableEq, Repr

def isND : Line2dm → Bool
  | Line2dm.nd .. => true
  | _ => false

def isE3T : Line2dm → Bool
  | Line2dm.e3t .. => true
  | _ => false

def isE4Q : Line2dm → Bool
  | Line2dm.e4q .. => true
  | _ => false

def isE2L : Line2dm → Bool
  | Line2dm.e2l .. => true
  | _ => false

def isUnsupported : Line2dm → Bool
  | Line2dm.e3l => true
  | Line2dm.e6t => true
  | Line2dm.e8q => true
  | Line2dm.e9q => true
  | _ => false

/-- The counting pass of `Driver2dm::load`: classify every line, abort with
`Err_UnsupportedElement` on `E3L`/`E6T`/`E8Q`/`E9Q`, and return
(faceCount, vertexCount, edgesCount). -/
def countPass : List Line2dm → Except MDAL_Status (Nat × Nat × Nat)
  | [] => Except.ok (0, 0, 0)
  | l :: rest =>
    if isUnsupported l then Except.error MDAL_Status.Err_UnsupportedElement
    else
      match countPass rest with
      | Except.error e => Except.error e
      | Except.ok (f, v, e) =>
        Except.ok (f + (if isE3T l || isE4Q l then 1 else 0),
                   v + (if isND l then 1 else 0),
                   e + (if isE2L l then 1 else 0))

/-- `size_t` subtraction by one of a 1-based ID (`2dm is numbered from 1`):
an ID of 0 wraps around. -/
def sub1sz (n : Nat) : Nat := if n = 0 then 2 ^ 64 - 1 else n - 1

/-- `_parse_vertex_id_gaps`: record an ID→index entry when the 0-based ID
does not equal the current vertex slot; a colliding ID is dropped with a
`Warn_ElementNotUnique` warning (the Bool).  The map is an association list
with unique keys (the `std::map`). -/
def parseVertexIdGaps (m : List (Nat × Nat)) (vertexIndex vertexID : Nat) :
    List (Nat × Nat) × Bool :=
  if vertexIndex = vertexID then (m, false)
  else
    match m.lookup vertexID with
    | Option.some _ => (m, true)
    | Option.none => ((vertexID, vertexIndex) :: m, false)

/-- Optional per-face elevation (`BASEMENT 3.x`): on the first value the
array is created, `faceCount` long, all entries unset. -/
def setElev (faceCount : Nat) (e : Option (List (Option Int))) (faceIndex : Nat)
    (v : Option Int) : Option (List (Option Int)) :=
  match v with
  | Option.none => e
  | Option.some x =>
    match e with
    | Option.none => Option.some ((List.replicate faceCount Option.none).set faceIndex (Option.some x))
    | Option.some a => Option.some (a.set faceIndex (Option.some x))

/-- The mutable state of the parsing pass of `Driver2dm::load` (the
pre-sized containers and the loop counters). -/
structure Parse2dmState where
  faceIndex : Nat
  vertexIndex : Nat
  edgeIndex : Nat
  vertexIDtoIndex : List (Nat × Nat)
  lastVertexID : Nat
  vertices : List (Int × Int × Int)
  edges : List (Nat × Nat)
  faces : List (List Nat)
  elev : Option (List (Option Int))
deriving DecidableEq, Repr

/-- The parsing pass of `Driver2dm::load` (the second `while` loop): fill
the pre-sized containers; a non-zero node ID not strictly greater than the
previous non-zero node ID aborts with `Err_InvalidData`; face and edge lines
store 0-based format-native IDs (not yet dense indices). -/
def parsePass (faceCount : Nat) : List Line2dm → Parse2dmState → List MDAL_Status →
    Except MDAL_Status (Parse2dmState × List MDAL_Status)
  | [], st, ws => Except.ok (st, ws)
  | l :: rest, st, ws =>
    match l with
    | Line2dm.nd id x y z =>
      if id ≠ 0 ∧ st.lastVertexID ≠ 0 ∧ id ≤ st.lastVertexID then
        Except.error MDAL_Status.Err_InvalidData
      else
        let nodeID := sub1sz id
        let pm := parseVertexIdGaps st.vertexIDtoIndex st.vertexIndex nodeID
        parsePass faceCount rest
          { st with
            vertexIDtoIndex := pm.1,
            lastVertexID := if id ≠ 0 then id else st.lastVertexID,
            vertices := st.vertices.set st.vertexIndex (x, y, z),
            vertexIndex := st.vertexIndex + 1 }
          (if pm.2 then ws ++ [MDAL_Status.Warn_ElementNotUnique] else ws)
    | Line2dm.e3t _ v1 v2 v3 _ el =>
      parsePass faceCount rest
        { st with
          faces := st.faces.set st.faceIndex [sub1sz v1, sub1sz v2, sub1sz v3],
          elev := setElev faceCount st.elev st.faceIndex el,
          faceIndex := st.faceIndex + 1 }
        ws
    | Line2dm.e4q _ v1 v2 v3 v4 _ el =>
      parsePass faceCount rest
        { st with
          faces := st.faces.set st.faceIndex [sub1sz v1, sub1sz v2, sub1sz v3, sub1sz v4],
          elev := setElev faceCount st.elev st.faceIndex el,
          faceIndex := st.faceIndex + 1 }
        ws
    | Line2dm.e2l _ a b _ =>
      parsePass faceCount rest
        { st with
          edges := st.edges.set st.edgeIndex (sub1sz a, sub1sz b),
          edgeIndex := st.edgeIndex + 1 }
        ws
    | _ => parsePass faceCount rest st ws

/-- Resolution of one face vertex reference: a mapped ID becomes its dense
index; an unmapped ID is accepted as the index itself, with a
`Warn_ElementWithInvalidNode` warning (the Bool) iff it exceeds the vertex
count (`vertices.size() < nodeID`). -/
def resolveNode (m : List (Nat × Nat)) (nVerts : Nat) (nodeID : Nat) : Nat × Bool :=
  match m.lookup nodeID with
  | Option.some idx => (idx, false)
  | Option.none => (nodeID, decide (nVerts < nodeID))

/-- The face-reference resolution pass of `Driver2dm::load`, with the
warnings it emits. -/
def resolveFaces (m : List (Nat × Nat)) (nVerts : Nat) (faces : List (List Nat)) :
    List (List Nat) × List MDAL_Status :=
  (faces.map (fun f => f.map (fun nodeID => (resolveNode m nVerts nodeID).1)),
   (faces.flatten).filterMap (fun nodeID =>
     if (resolveNode m nVerts nodeID).2 then Option.some MDAL_Status.Warn_ElementWithInvalidNode
     else Option.none))

/-- The mesh `Driver2dm::load` builds (`Mesh2dm`), with the ID→index map the
mesh keeps for later `vertexIndex` lookups. -/
structure Mesh2dm where
  vertices : List (Int × Int × Int)
  edges : List (Nat × Nat)
  faces : List (List Nat)
  mVertexIDtoIndex : List (Nat × Nat)
deriving DecidableEq, Repr

/-- `Mesh2dm::vertexIndex`: a mapped ID converts to its index, an unmapped
ID is returned unchanged. -/
def Mesh2dm.vertexIndex (mesh : Mesh2dm) (vertexID : Nat) : Nat :=
  match mesh.mVertexIDtoIndex.lookup vertexID with
  | Option.some i => i
  | Option.none => vertexID

/-- The recognized header token `MESH2D`. -/
def headerTok : List Char := ['M', 'E', 'S', 'H', '2', 'D']

/-- A 2DM file for `load`: the first line read by `std::getline` (`none`
when the file is empty and `getline` fails), and the remaining lines by
parsed content. -/
structure File2dm where
  header : Option (List Char)
  lines : List Line2dm
deriving DecidableEq, Repr

/-- `Driver2dm::load`: header check (`startsWith(line, "MESH2D")`), counting
pass, container pre-sizing, parsing pass, face-reference resolution, mesh
construction.  Returns the mesh and the accumulated non-fatal warnings. -/
def Driver2dm.load (f : File2dm) : Except MDAL_Status (Mesh2dm × List MDAL_Status) :=
  match f.header with
  | Option.none => Except.error MDAL_Status.Err_UnknownFormat
  | Option.some h =>
    if headerTok.isPrefixOf h then
      match countPass f.lines with
      | Except.error e => Except.error e
      | Except.ok (faceCount, vertexCount, edgeCount) =>
        match parsePass faceCount f.lines
            ⟨0, 0, 0, [], 0, List.replicate vertexCount (0, 0, 0),
             List.replicate edgeCount (0, 0), List.replicate faceCount [], Option.none⟩ [] with
        | Except.error e => Except.error e
        | Except.ok (st, ws) =>
          let r := resolveFaces st.vertexIDtoIndex st.vertices.length st.faces
          Except.ok (⟨st.vertices, st.edges, r.1, st.vertexIDtoIndex⟩, ws ++ r.2)
    else Except.error MDAL_Status.Err_UnknownFormat

/-- Modelled from the spec: `MDAL::getHeaderLine` (mdal_utils, not in the
sources) reads the first non-empty line of the file. -/
def getHeaderLine (lines : List (List Char)) : Option (List Char) :=
  lines.find? (fun l => !l.isEmpty)

/-- `Driver2dm::canReadMesh`: succeed iff the first non-empty line starts
with the `MESH2D` token. -/
def Driver2dm.canReadMesh (lines : List (List Char)) : Bool :=
  match getHeaderLine lines with
  | Option.none => false
  | Option.some l => headerTok.isPrefixOf l

/-- The sequence of non-zero node IDs of the `ND` lines, in file order. -/
def nonzeroNDids : List Line2dm → List Nat
  | [] => []
  | Line2dm.nd id _ _ _ :: rest => if id ≠ 0 then id :: nonzeroNDids rest else nonzeroNDids rest
  | _ :: rest => nonzeroNDids rest

/-- The node-ID ordering discipline of the parsing pass, as a pure check
over the non-zero ID sequence: each ID must be strictly greater than the
previous one (`last = 0` meaning none seen yet). -/
def idsOK : Nat → List Nat → Bool
  | _, [] => true
  | last, id :: rest => if last ≠ 0 ∧ id ≤ last then false else idsOK id rest

/-! ### Step equations for the face loop (proved definitionally) -/

theorem faceLoop_nil_eq (total : Nat) (mbc : Int) (ms : List Int) (c : Nat) (mi : Int)
    (acc : List (List Nat)) (m : List Nat) :
    faceLoop total mbc [] ms c mi acc m =
      match refreshStep mbc c (mi, ms) with
      | Option.none => Except.error MDAL_Status.Err_UnknownFormat
      | Option.some _ => Except.ok (acc, m) := rfl

theorem faceLoop_one_eq (total : Nat) (mbc : Int) (ms : List Int) (c : Nat) (mi : Int)
    (acc : List (List Nat)) (m : List Nat) (a : Int) :
    faceLoop total mbc [a] ms c mi acc m =
      match refreshStep mbc c (mi, ms) with
      | Option.none => Except.error MDAL_Status.Err_UnknownFormat
      | Option.some _ => Except.error MDAL_Status.Err_UnknownFormat := rfl

theorem faceLoop_two_eq (total : Nat) (mbc : Int) (ms : List Int) (c : Nat) (mi : Int)
    (acc : List (List Nat)) (m : List Nat) (a b : Int) :
    faceLoop total mbc [a, b] ms c mi acc m =
      match refreshStep mbc c (mi, ms) with
      | Option.none => Except.error MDAL_Status.Err_UnknownFormat
      | Option.some _ => Except.error MDAL_Status.Err_UnknownFormat := rfl

theorem faceLoop_cons_eq (total : Nat) (mbc : Int) (ms : List Int) (c : Nat) (mi : Int)
    (acc : List (List Nat)) (m : List Nat) (a b d : Int) (rest : List Int) :
    faceLoop total mbc (a :: b :: d :: rest) ms c mi acc m =
      match refreshStep mbc c (mi, ms) with
      | Option.none => Except.error MDAL_Status.Err_UnknownFormat
      | Option.some (mi2, ms2) =>
        if mi2.emod 2 = 0 then
          match markWanted total [rawIdx a, rawIdx b, rawIdx d] m with
          | Except.error e => Except.error e
          | Except.ok m2 =>
            faceLoop total mbc rest ms2 (c + 1) (mi2.ediv 2)
              (acc ++ [[rawIdx a, rawIdx b, rawIdx d]]) m2
        else faceLoop total mbc rest ms2 (c + 1) (mi2.ediv 2) acc m := rfl

/-! ### Claim C6: truncated face records -/

/-- Claim C6: when reading one candidate face, reading zero indexes
terminates the face loop cleanly with the faces accumulated so far (not an
error), while reading exactly 1 or 2 indexes before the face stream ends
fails the load with the corrupt-file error `Err_UnknownFormat` (the thrown
status is caught at the top of `load`, which then returns no mesh).  The
hypothesis states that the mask-word refresh of this iteration can be
served, so the face read is reached. -/
theorem esriTin_faceRecordTruncation (total : Nat) (mbc : Int) (ws : List Int) (c : Nat)
    (mi : Int) (acc : List (List Nat)) (m : List Nat)
    (hmask : ¬(c % 32 = 0 ∧ (c : Int) < mbc) ∨ ws ≠ []) :
    faceLoop total mbc [] ws c mi acc m = Except.ok (acc, m) ∧
    (∀ a, faceLoop total mbc [a] ws c mi acc m = Except.error MDAL_Status.Err_UnknownFormat) ∧
    (∀ a b, faceLoop total mbc [a, b] ws c mi acc m = Except.error MDAL_Status.Err_UnknownFormat) := by
  obtain ⟨mi2, ms2, hst⟩ : ∃ mi2 ms2, refreshStep mbc c (mi, ws) = Option.some (mi2, ms2) := by
    unfold refreshStep
    rcases hmask with h | h
    · rw [if_neg h]; exact ⟨mi, ws, rfl⟩
    · split
      · cases ws with
        | nil => exact absurd rfl h
        | cons w rest => exact ⟨w, rest, rfl⟩
      · exact ⟨mi, ws, rfl⟩
  refine ⟨?_, fun a => ?_, fun a b => ?_⟩
  · rw [faceLoop_nil_eq, hst]
  · rw [faceLoop_one_eq, hst]
  · rw [faceLoop_two_eq, hst]

/-- Witness for C6 at a concrete state (iteration 1, no mask refresh due). -/
theorem esriTin_faceRecordTruncation_witness :
    faceLoop 5 0 [] [] 1 0 [] [] = Except.ok ([], []) ∧
    (∀ a, faceLoop 5 0 [a] [] 1 0 [] [] = Except.error MDAL_Status.Err_UnknownFormat) ∧
    (∀ a b, faceLoop 5 0 [a, b] [] 1 0 [] [] = Except.error MDAL_Status.Err_UnknownFormat) :=
  esriTin_faceRecordTruncation 5 0 [] 1 0 [] [] (Or.inl (by decide))

/-! ### Claim C5: one paired vertex file short by one record -/

/-- Helper for C5: if the elevation stream is one record shorter than what
the coordinate stream supplies (and the lookup table demands that many raw
indexes), the vertex pass fails with `Err_UnknownFormat`. -/
theorem vertexLoop_zShort (total : Nat) :
    ∀ (zs xs : List Int) (m : List Nat) (c : Nat) (verts : List (Int × Int × Int)),
      xs.length = 2 * (zs.length + 1) → c + zs.length + 1 ≤ m.length →
      vertexLoop total m c xs zs verts = Except.error MDAL_Status.Err_UnknownFormat := by
  intro zs
  induction zs with
  | nil =>
    intro xs m c verts hx hc
    simp only [List.length_nil] at hc
    cases xs with
    | nil => simp only [List.length_nil] at hx; omega
    | cons x xs1 =>
      cases xs1 with
      | nil => simp only [List.length_cons, List.length_nil] at hx; omega
      | cons y xs2 =>
        simp only [List.length_cons, List.length_nil] at hx
        obtain rfl : xs2 = [] := List.eq_nil_of_length_eq_zero (by omega)
        rw [show vertexLoop total m c [x, y] [] verts
              = if c < m.length then Except.error MDAL_Status.Err_UnknownFormat
                else Except.ok verts from rfl]
        rw [if_pos (by omega)]
  | cons z ztail ih =>
    intro xs m c verts hx hc
    simp only [List.length_cons] at hc
    cases xs with
    | nil => simp only [List.length_nil] at hx; omega
    | cons x xs1 =>
      cases xs1 with
      | nil => simp only [List.length_cons, List.length_nil] at hx; omega
      | cons y xs2 =>
        rw [show vertexLoop total m c (x :: y :: xs2) (z :: ztail) verts
              = if c < m.length then
                  vertexLoop total m (c + 1) xs2 ztail
                    (if m.getD c 0 < total then verts.set (m.getD c 0) (x, y, z) else verts)
                else Except.ok verts from rfl]
        rw [if_pos (by omega)]
        simp only [List.length_cons] at hx
        exact ih xs2 m (c + 1) _ (by omega) (by omega)

/-- Amended claim C5: the direction is the reverse of the claim's.  When the
elevation (z) file holds one fewer record than the coordinate (x,y) file
supplies — the coordinate file still yields a full record at the raw index
where the elevation file is exhausted — the load fails with the corrupt-file
error `Err_UnknownFormat`; a coordinate file exhausted at a record boundary
instead terminates the vertex pass cleanly (see the counterexample). -/
theorem esriTin_pairedFileShort (total : Nat) (m : List Nat) (xs zs : List Int)
    (verts : List (Int × Int × Int))
    (hx : xs.length = 2 * (zs.length + 1)) (hm : zs.length + 1 ≤ m.length) :
    vertexLoop total m 0 xs zs verts = Except.error MDAL_Status.Err_UnknownFormat :=
  vertexLoop_zShort total zs xs m 0 verts hx (by omega)

/-- Witness for the amended C5: one coordinate record, no elevation record. -/
theorem esriTin_pairedFileShort_witness :
    vertexLoop 1 [0] 0 [7, 8] [] [(0, 0, 0)] = Except.error MDAL_Status.Err_UnknownFormat :=
  esriTin_pairedFileShort 1 [0] [7, 8] [] [(0, 0, 0)] (by decide) (by decide)

/-- A concrete input on which claim C5 as stated fails: one kept face wants
raw indexes 0, 1, 2; the elevation file supplies 3 records but the
coordinate file only 2 (one fewer).  The load does not fail with a corrupt
error: the `x` read failure at raw index 2 breaks the loop cleanly and a
mesh is returned, its third vertex left default-constructed. -/
def tinInputC5 : TinInput := ⟨3, 1, [0], [1, 2, 3], [10, 11, 20, 21], [5, 6, 7]⟩

/-- Counterexample to claim C5 as stated: the coordinate file is one record
shorter than the elevation file for the three wanted raw indexes, yet the
load succeeds and returns a mesh. -/
theorem esriTin_c5_counterexample :
    tinInputC5.xyStream.length = 2 * 2 ∧ tinInputC5.zStream.length = 3 ∧
    DriverEsriTin.load tinInputC5 =
      Except.ok ⟨[[0, 1, 2]], [(10, 11, 5), (20, 21, 6), (0, 0, 0)]⟩ := by
  refine ⟨rfl, rfl, ?_⟩
  rfl

/-! ### Conditioned step lemmas for the face loop -/

theorem faceLoop_step_none (total : Nat) (mbc : Int) (fs ms : List Int) (c : Nat) (mi : Int)
    (acc : List (List Nat)) (m : List Nat)
    (href : refreshStep mbc c (mi, ms) = Option.none) :
    faceLoop total mbc fs ms c mi acc m = Except.error MDAL_Status.Err_UnknownFormat := by
  cases fs with
  | nil => rw [faceLoop_nil_eq, href]
  | cons a fs1 =>
    cases fs1 with
    | nil => rw [faceLoop_one_eq, href]
    | cons b fs2 =>
      cases fs2 with
      | nil => rw [faceLoop_two_eq, href]
      | cons d rest => rw [faceLoop_cons_eq, href]

theorem faceLoop_nil_some (total : Nat) (mbc : Int) (ms : List Int) (c : Nat) (mi mi2 : Int)
    (ms2 : List Int) (acc : List (List Nat)) (m : List Nat)
    (href : refreshStep mbc c (mi, ms) = Option.some (mi2, ms2)) :
    faceLoop total mbc [] ms c mi acc m = Except.ok (acc, m) := by
  rw [faceLoop_nil_eq, href]

theorem faceLoop_one_some (total : Nat) (mbc : Int) (ms : List Int) (c : Nat) (mi mi2 : Int)
    (ms2 : List Int) (acc : List (List Nat)) (m : List Nat) (a : Int)
    (href : refreshStep mbc c (mi, ms) = Option.some (mi2, ms2)) :
    faceLoop total mbc [a] ms c mi acc m = Except.error MDAL_Status.Err_UnknownFormat := by
  rw [faceLoop_one_eq, href]

theorem faceLoop_two_some (total : Nat) (mbc : Int) (ms : List Int) (c : Nat) (mi mi2 : Int)
    (ms2 : List Int) (acc : List (List Nat)) (m : List Nat) (a b : Int)
    (href : refreshStep mbc c (mi, ms) = Option.some (mi2, ms2)) :
    faceLoop total mbc [a, b] ms c mi acc m = Except.error MDAL_Status.Err_UnknownFormat := by
  rw [faceLoop_two_eq, href]

theorem faceLoop_cons_some (total : Nat) (mbc : Int) (ms : List Int) (c : Nat) (mi mi2 : Int)
    (ms2 : List Int) (acc : List (List Nat)) (m : List Nat) (a b d : Int) (rest : List Int)
    (href : refreshStep mbc c (mi, ms) = Option.some (mi2, ms2)) :
    faceLoop total mbc (a :: b :: d :: rest) ms c mi acc m =
      if mi2.emod 2 = 0 then
        match markWanted total [rawIdx a, rawIdx b, rawIdx d] m with
        | Except.error e => Except.error e
        | Except.ok m2 =>
          faceLoop total mbc rest ms2 (c + 1) (mi2.ediv 2)
            (acc ++ [[rawIdx a, rawIdx b, rawIdx d]]) m2
      else faceLoop total mbc rest ms2 (c + 1) (mi2.ediv 2) acc m := by
  rw [faceLoop_cons_eq, href]

/-! ### Claim C10: raw indexes of kept faces are validated before the table write -/

theorem markWanted_length (total : Nat) :
    ∀ (f m m2 : List Nat), markWanted total f m = Except.ok m2 → m2.length = m.length := by
  intro f
  induction f with
  | nil =>
    intro m m2 h
    simp only [markWanted] at h
    cases h
    rfl
  | cons ri rest ih =>
    intro m m2 h
    simp only [markWanted] at h
    by_cases hri : total ≤ ri
    · rw [if_pos hri] at h; cases h
    · rw [if_neg hri] at h
      rw [ih (m.set ri 1) m2 h, List.length_set]

theorem markWanted_lt (total : Nat) :
    ∀ (f m m2 : List Nat), markWanted total f m = Except.ok m2 → ∀ ri ∈ f, ri < total := by
  intro f
  induction f with
  | nil => intro m m2 _ ri hri; cases hri
  | cons r rest ih =>
    intro m m2 h ri hri
    simp only [markWanted] at h
    by_cases hr : total ≤ r
    · rw [if_pos hr] at h; cases h
    · rw [if_neg hr] at h
      cases hri with
      | head => omega
      | tail _ hmem => exact ih (m.set r 1) m2 h ri hmem

theorem markWanted_err (total : Nat) :
    ∀ (f m : List Nat), (∃ ri ∈ f, total ≤ ri) →
      markWanted total f m = Except.error MDAL_Status.Err_UnknownFormat := by
  intro f
  induction f with
  | nil =>
    intro m h
    obtain ⟨ri, hmem, _⟩ := h
    cases hmem
  | cons r rest ih =>
    intro m h
    simp only [markWanted]
    by_cases hr : total ≤ r
    · rw [if_pos hr]
    · rw [if_neg hr]
      obtain ⟨ri, hmem, hge⟩ := h
      cases hmem with
      | head => omega
      | tail _ hmem2 => exact ih (m.set r 1) ⟨ri, hmem2, hge⟩

/-- Loop invariant behind C10: a successful face loop keeps the lookup table
at its initial length and every raw index of every kept face below the
total. -/
theorem faceLoop_inv (total : Nat) (mbc : Int) :
    ∀ (n : Nat) (fs ms : List Int) (c : Nat) (mi : Int) (acc : List (List Nat)) (m : List Nat)
      (faces : List (List Nat)) (mfin : List Nat),
      fs.length = n → m.length = total → (∀ f ∈ acc, ∀ ri ∈ f, ri < total) →
      faceLoop total mbc fs ms c mi acc m = Except.ok (faces, mfin) →
      mfin.length = total ∧ ∀ f ∈ faces, ∀ ri ∈ f, ri < total := by
  intro n
  induction n using Nat.strong_induction_on with
  | _ n ih =>
    intro fs ms c mi acc m faces mfin hn hm hacc hrun
    cases href : refreshStep mbc c (mi, ms) with
    | none => rw [faceLoop_step_none total mbc fs ms c mi acc m href] at hrun; cases hrun
    | some st =>
      obtain ⟨mi2, ms2⟩ := st
      cases fs with
      | nil =>
        rw [faceLoop_nil_some total mbc ms c mi mi2 ms2 acc m href] at hrun
        cases hrun
        exact ⟨hm, hacc⟩
      | cons a fs1 =>
        cases fs1 with
        | nil =>
          rw [faceLoop_one_some total mbc ms c mi mi2 ms2 acc m a href] at hrun; cases hrun
        | cons b fs2 =>
          cases fs2 with
          | nil =>
            rw [faceLoop_two_some total mbc ms c mi mi2 ms2 acc m a b href] at hrun; cases hrun
          | cons d rest =>
            rw [faceLoop_cons_some total mbc ms c mi mi2 ms2 acc m a b d rest href] at hrun
            by_cases hbit : mi2.emod 2 = 0
            · rw [if_pos hbit] at hrun
              cases hmw : markWanted total [rawIdx a, rawIdx b, rawIdx d] m with
              | error e => rw [hmw] at hrun; cases hrun
              | ok m2 =>
                rw [hmw] at hrun
                refine ih rest.length (by simp only [List.length_cons] at hn; omega)
                  rest ms2 (c + 1) (mi2.ediv 2) _ m2 faces mfin rfl
                  (by rw [markWanted_length total _ m m2 hmw]; exact hm) ?_ hrun
                intro f hf ri hri
                rcases List.mem_append.mp hf with hf1 | hf2
                · exact hacc f hf1 ri hri
                · rw [List.mem_singleton.mp hf2] at hri
                  exact markWanted_lt total _ m m2 hmw ri hri
            · rw [if_neg hbit] at hrun
              exact ih rest.length (by simp only [List.length_cons] at hn; omega)
                rest ms2 (c + 1) (mi2.ediv 2) acc m faces mfin rfl hm hacc hrun

/-- Claim C10: in the face-decoding round every raw vertex index of a kept
(unmasked) face is validated against the total index count read from the
header before the lookup-table write for that index: a raw index
`≥ totalIndexesCount` in a kept face makes `markWanted` fail with an error
(third conjunct), so on a successful load every kept-face index — i.e.
every index the table is written at — is `< totalIndexesCount`, which is
exactly the table's (invariant) length: every table write is in bounds and
the out-of-bounds access is unreachable. -/
theorem esriTin_wantedIndexValidation (total : Nat) (mbc : Int) (fs ws : List Int)
    (faces : List (List Nat)) (mfin : List Nat) (f2 m2 : List Nat)
    (h : faceLoop total mbc fs ws 0 0 [] (List.replicate total total) = Except.ok (faces, mfin))
    (hbad : ∃ ri ∈ f2, total ≤ ri) :
    mfin.length = total ∧ (∀ f ∈ faces, ∀ ri ∈ f, ri < total) ∧
    markWanted total f2 m2 = Except.error MDAL_Status.Err_UnknownFormat := by
  have hinv := faceLoop_inv total mbc fs.length fs ws 0 0 [] (List.replicate total total)
    faces mfin rfl (List.length_replicate total total) (by intro f hf; cases hf) h
  exact ⟨hinv.1, hinv.2, markWanted_err total f2 m2 hbad⟩

/-- Witness for C10 at a concrete successful run (one kept face) and a
concrete invalid face record. -/
theorem esriTin_wantedIndexValidation_witness :
    ([1, 1, 1] : List Nat).length = 3 ∧
    (∀ f ∈ [[0, 1, 2]], ∀ ri ∈ f, ri < 3) ∧
    markWanted 3 [5] [] = Except.error MDAL_Status.Err_UnknownFormat :=
  esriTin_wantedIndexValidation 3 0 [1, 2, 3] [] [[0, 1, 2]] [1, 1, 1] [5] [] rfl
    ⟨5, by simp, by omega⟩

/-! ### Claim C2: the compaction invariant -/

theorem compact_cons_eq (total v : Nat) (rest : List Nat) (k : Nat) :
    compact total (v :: rest) k =
      if v < total then (k :: (compact total rest (k + 1)).1, (compact total rest (k + 1)).2)
      else (v :: (compact total rest k).1, (compact total rest k).2) := rfl

theorem compact_length (total : Nat) :
    ∀ (m : List Nat) (k : Nat), (compact total m k).1.length = m.length := by
  intro m
  induction m with
  | nil => intro k; rfl
  | cons v rest ih =>
    intro k
    rw [compact_cons_eq]
    by_cases hv : v < total
    · rw [if_pos hv]; simp [ih]
    · rw [if_neg hv]; simp [ih]

theorem compact_count (total : Nat) :
    ∀ (m : List Nat) (k : Nat),
      (compact total m k).2 = k + m.countP (fun v => decide (v < total)) := by
  intro m
  induction m with
  | nil => intro k; simp [compact]
  | cons v rest ih =>
    intro k
    rw [compact_cons_eq]
    simp only [List.countP_cons]
    by_cases hv : v < total
    · rw [if_pos hv]
      show (compact total rest (k + 1)).2 = _
      rw [ih (k + 1), if_pos (decide_eq_true hv)]
      omega
    · rw [if_neg hv]
      show (compact total rest k).2 = _
      rw [ih k, if_neg (by simpa using hv)]
      omega

theorem compact_getD (total : Nat) :
    ∀ (m : List Nat) (k i : Nat), i < m.length →
      (compact total m k).1.getD i 0 =
        if m.getD i 0 < total then k + (m.take i).countP (fun v => decide (v < total))
        else m.getD i 0 := by
  intro m
  induction m with
  | nil => intro k i hi; cases hi
  | cons v rest ih =>
    intro k i hi
    rw [compact_cons_eq]
    by_cases hv : v < total
    · rw [if_pos hv]
      cases i with
      | zero => simp [hv]
      | succ j =>
        show (compact total rest (k + 1)).1.getD j 0 = _
        rw [ih (k + 1) j (by simp only [List.length_cons] at hi; omega)]
        simp only [List.getD_cons_succ, List.take_succ_cons, List.countP_cons]
        by_cases hw : rest.getD j 0 < total
        · rw [if_pos hw, if_pos hw, if_pos (decide_eq_true hv)]; omega
        · rw [if_neg hw, if_neg hw]
    · rw [if_neg hv]
      cases i with
      | zero => simp [hv]
      | succ j =>
        show (compact total rest k).1.getD j 0 = _
        rw [ih k j (by simp only [List.length_cons] at hi; omega)]
        simp only [List.getD_cons_succ, List.take_succ_cons, List.countP_cons]
        by_cases hw : rest.getD j 0 < total
        · rw [if_pos hw, if_pos hw,
              if_neg (show ¬(decide (v < total) = true) by simpa using hv)]
          omega
        · rw [if_neg hw, if_neg hw]

theorem countP_take_succ (p : Nat → Bool) :
    ∀ (m : List Nat) (i : Nat), i < m.length →
      (m.take (i + 1)).countP p = (m.take i).countP p + (if p (m.getD i 0) then 1 else 0) := by
  intro m
  induction m with
  | nil => intro i hi; cases hi
  | cons v rest ih =>
    intro i hi
    cases i with
    | zero => simp [List.countP_cons]
    | succ j =>
      simp only [List.take_succ_cons, List.countP_cons, List.getD_cons_succ]
      rw [ih j (by simp only [List.length_cons] at hi; omega)]
      omega

theorem countP_take_mono (p : Nat → Bool) :
    ∀ (m : List Nat) (i j : Nat), i ≤ j →
      (m.take i).countP p ≤ (m.take j).countP p := by
  intro m
  induction m with
  | nil => intro i j _; simp
  | cons v rest ih =>
    intro i j hij
    cases i with
    | zero => simp
    | succ i2 =>
      cases j with
      | zero => omega
      | succ j2 =>
        simp only [List.take_succ_cons, List.countP_cons]
        have := ih i2 j2 (by omega)
        omega

theorem countP_rank_surj (p : Nat → Bool) :
    ∀ (m : List Nat) (d : Nat), d < m.countP p →
      ∃ i, i < m.length ∧ p (m.getD i 0) = true ∧ (m.take i).countP p = d := by
  intro m
  induction m with
  | nil => intro d hd; simp at hd
  | cons v rest ih =>
    intro d hd
    simp only [List.countP_cons] at hd
    by_cases hv : p v = true
    · rw [if_pos hv] at hd
      cases d with
      | zero => exact ⟨0, by simp, by simpa using hv, by simp⟩
      | succ e =>
        obtain ⟨i, hi, hpi, hcnt⟩ := ih e (by omega)
        refine ⟨i + 1, by simp only [List.length_cons]; omega, by simpa using hpi, ?_⟩
        simp only [List.take_succ_cons, List.countP_cons, hcnt]
        rw [if_pos hv]
    · rw [if_neg hv] at hd
      obtain ⟨i, hi, hpi, hcnt⟩ := ih d (by omega)
      refine ⟨i + 1, by simp only [List.length_cons]; omega, by simpa using hpi, ?_⟩
      simp only [List.take_succ_cons, List.countP_cons, hcnt]
      rw [if_neg hv]
      omega

/-- Claim C2: after the compaction pass, the entries of the lookup table
whose pre-compaction value is `< totalIndexesCount` (the wanted raw indexes,
marked 1 in round 1) receive exactly the dense indexes
`0, …, correctedIndexCount - 1`: each wanted entry becomes its rank among
wanted entries (third conjunct), so the assignment is strictly increasing in
raw-index order (fifth), bounded by `correctedIndexCount` (sixth) and onto
(seventh — no gaps, no repeats by the fifth), while unwanted entries are
left unchanged at their sentinel value `≥ totalIndexesCount` (fourth), so
round 3's guard `map[rawIndex] < totalIndexesCount` never stores them in the
final vertex container. -/
theorem esriTin_compaction (total : Nat) (m m2 : List Nat) (k : Nat)
    (h : compact total m 0 = (m2, k)) :
    m2.length = m.length ∧
    k = m.countP (fun v => decide (v < total)) ∧
    (∀ i, i < m.length → m.getD i 0 < total →
      m2.getD i 0 = (m.take i).countP (fun v => decide (v < total))) ∧
    (∀ i, i < m.length → ¬ m.getD i 0 < total → m2.getD i 0 = m.getD i 0) ∧
    (∀ i j, i < j → j < m.length → m.getD i 0 < total → m.getD j 0 < total →
      m2.getD i 0 < m2.getD j 0) ∧
    (∀ i, i < m.length → m.getD i 0 < total → m2.getD i 0 < k) ∧
    (∀ d, d < k → ∃ i, i < m.length ∧ m.getD i 0 < total ∧ m2.getD i 0 = d) := by
  have hm2 : m2 = (compact total m 0).1 := by rw [h]
  have hk : k = (compact total m 0).2 := by rw [h]
  subst hm2
  subst hk
  have hcount := compact_count total m 0
  rw [Nat.zero_add] at hcount
  have hrank : ∀ i, i < m.length → m.getD i 0 < total →
      (compact total m 0).1.getD i 0 = (m.take i).countP (fun v => decide (v < total)) := by
    intro i hi hw
    rw [compact_getD total m 0 i hi, if_pos hw, Nat.zero_add]
  refine ⟨compact_length total m 0, hcount, hrank, ?_, ?_, ?_, ?_⟩
  · intro i hi hw
    rw [compact_getD total m 0 i hi, if_neg hw]
  · intro i j hij hj hwi hwj
    rw [hrank i (by omega) hwi, hrank j hj hwj]
    have h1 : (m.take (i + 1)).countP (fun v => decide (v < total))
        = (m.take i).countP (fun v => decide (v < total)) + 1 := by
      rw [countP_take_succ _ m i (by omega), if_pos (decide_eq_true hwi)]
    have h2 := countP_take_mono (fun v => decide (v < total)) m (i + 1) j (by omega)
    omega
  · intro i hi hw
    rw [hrank i hi hw, hcount]
    have h1 : (m.take (i + 1)).countP (fun v => decide (v < total))
        = (m.take i).countP (fun v => decide (v < total)) + 1 := by
      rw [countP_take_succ _ m i hi, if_pos (decide_eq_true hw)]
    have h2 := countP_take_mono (fun v => decide (v < total)) m (i + 1) m.length (by omega)
    rw [List.take_length] at h2
    omega
  · intro d hd
    rw [hcount] at hd
    obtain ⟨i, hi, hpi, hcnt⟩ := countP_rank_surj (fun v => decide (v < total)) m d hd
    exact ⟨i, hi, of_decide_eq_true hpi, by rw [hrank i hi (of_decide_eq_true hpi)]; exact hcnt⟩

/-- Witness for C2 at a concrete table: `total = 5`, wanted entries (value
1) at raw indexes 1, 3, 4, sentinel 5 elsewhere; the compacted table is
`[5, 0, 5, 1, 2]` with `correctedIndexCount = 3`. -/
theorem esriTin_compaction_witness :
    ([5, 0, 5, 1, 2] : List Nat).length = ([5, 1, 5, 1, 1] : List Nat).length ∧
    3 = ([5, 1, 5, 1, 1] : List Nat).countP (fun v => decide (v < 5)) ∧
    (∀ i, i < ([5, 1, 5, 1, 1] : List Nat).length → ([5, 1, 5, 1, 1] : List Nat).getD i 0 < 5 →
      ([5, 0, 5, 1, 2] : List Nat).getD i 0 =
        (([5, 1, 5, 1, 1] : List Nat).take i).countP (fun v => decide (v < 5))) ∧
    (∀ i, i < ([5, 1, 5, 1, 1] : List Nat).length → ¬ ([5, 1, 5, 1, 1] : List Nat).getD i 0 < 5 →
      ([5, 0, 5, 1, 2] : List Nat).getD i 0 = ([5, 1, 5, 1, 1] : List Nat).getD i 0) ∧
    (∀ i j, i < j → j < ([5, 1, 5, 1, 1] : List Nat).length →
      ([5, 1, 5, 1, 1] : List Nat).getD i 0 < 5 → ([5, 1, 5, 1, 1] : List Nat).getD j 0 < 5 →
      ([5, 0, 5, 1, 2] : List Nat).getD i 0 < ([5, 0, 5, 1, 2] : List Nat).getD j 0) ∧
    (∀ i, i < ([5, 1, 5, 1, 1] : List Nat).length → ([5, 1, 5, 1, 1] : List Nat).getD i 0 < 5 →
      ([5, 0, 5, 1, 2] : List Nat).getD i 0 < 3) ∧
    (∀ d, d < 3 → ∃ i, i < ([5, 1, 5, 1, 1] : List Nat).length ∧
      ([5, 1, 5, 1, 1] : List Nat).getD i 0 < 5 ∧ ([5, 0, 5, 1, 2] : List Nat).getD i 0 = d) :=
  esriTin_compaction 5 [5, 1, 5, 1, 1] [5, 0, 5, 1, 2] 3 rfl

/-! ### Claim C1: the mask filter over candidate faces -/

theorem maskPre_zero (mbc : Int) (ws : List Int) : maskPre mbc ws 0 = Option.some (0, ws) := rfl

theorem maskPre_succ (mbc : Int) (ws : List Int) (c : Nat) :
    maskPre mbc ws (c + 1) =
      (maskPre mbc ws c).bind (fun st =>
        (refreshStep mbc c st).map (fun st2 => (st2.1.ediv 2, st2.2))) := rfl

theorem candFace_cons_zero (a b d : Int) (rest : List Int) :
    candFace (a :: b :: d :: rest) 0 = [rawIdx a, rawIdx b, rawIdx d] := rfl

theorem candFace_cons_succ (a b d : Int) (rest : List Int) (i : Nat) :
    candFace (a :: b :: d :: rest) (i + 1) = candFace rest i := by
  unfold candFace
  rw [show 3 * (i + 1) = 3 * i + 1 + 1 + 1 from by ring]
  simp only [List.drop_succ_cons]

theorem range_succ_filterMap {α : Type} (g : Nat → Option α) (N : Nat) :
    (List.range (N + 1)).filterMap g =
      (g 0).toList ++ (List.range N).filterMap (fun i => g (i + 1)) := by
  rw [List.range_succ_eq_map, List.filterMap_cons, List.filterMap_map]
  have hc : (g ∘ Nat.succ) = (fun i => g (i + 1)) := by
    funext i
    simp [Function.comp, Nat.succ_eq_add_one]
  rw [hc]
  cases hg : g 0 with
  | none => simp
  | some x => simp

/-- The face loop computes exactly the mask-filtered candidate faces: a
successful run from a state whose mask discipline is described by
`maskPre` appends to the accumulator precisely those candidate faces whose
effective mask bit is 0. -/
theorem faceLoop_maskSpec (total : Nat) (mbc : Int) (ws : List Int) :
    ∀ (n : Nat) (fs ms : List Int) (c : Nat) (mi : Int) (acc : List (List Nat)) (m : List Nat)
      (faces : List (List Nat)) (mfin : List Nat),
      fs.length = n →
      maskPre mbc ws c = Option.some (mi, ms) →
      faceLoop total mbc fs ms c mi acc m = Except.ok (faces, mfin) →
      fs.length % 3 = 0 ∧
      faces = acc ++ (List.range (fs.length / 3)).filterMap
        (fun i => if maskBitAt mbc ws (c + i) = Option.some false
                  then Option.some (candFace fs i) else Option.none) := by
  intro n
  induction n using Nat.strong_induction_on with
  | _ n ih =>
    intro fs ms c mi acc m faces mfin hn hpre hrun
    cases href : refreshStep mbc c (mi, ms) with
    | none => rw [faceLoop_step_none total mbc fs ms c mi acc m href] at hrun; cases hrun
    | some st =>
      obtain ⟨mi2, ms2⟩ := st
      have hbit : maskBitAt mbc ws c = Option.some (decide (mi2.emod 2 = 1)) := by
        unfold maskBitAt
        rw [hpre]
        simp [href]
      cases fs with
      | nil =>
        rw [faceLoop_nil_some total mbc ms c mi mi2 ms2 acc m href] at hrun
        cases hrun
        simp
      | cons a fs1 =>
        cases fs1 with
        | nil =>
          rw [faceLoop_one_some total mbc ms c mi mi2 ms2 acc m a href] at hrun; cases hrun
        | cons b fs2 =>
          cases fs2 with
          | nil =>
            rw [faceLoop_two_some total mbc ms c mi mi2 ms2 acc m a b href] at hrun; cases hrun
          | cons d rest =>
            rw [faceLoop_cons_some total mbc ms c mi mi2 ms2 acc m a b d rest href] at hrun
            have hpre2 : maskPre mbc ws (c + 1) = Option.some (mi2.ediv 2, ms2) := by
              rw [maskPre_succ, hpre]
              simp [href]
            have hlen : (a :: b :: d :: rest).length = rest.length + 3 := by
              simp only [List.length_cons]
            have hdiv : (a :: b :: d :: rest).length / 3 = rest.length / 3 + 1 := by
              rw [hlen]
              omega
            have hshift : ∀ tail : List (List Nat),
                (List.range (rest.length / 3 + 1)).filterMap
                  (fun i => if maskBitAt mbc ws (c + i) = Option.some false
                            then Option.some (candFace (a :: b :: d :: rest) i)
                            else Option.none) =
                (if maskBitAt mbc ws c = Option.some false
                 then [[rawIdx a, rawIdx b, rawIdx d]] else []) ++
                (List.range (rest.length / 3)).filterMap
                  (fun i => if maskBitAt mbc ws (c + 1 + i) = Option.some false
                            then Option.some (candFace rest i) else Option.none) := by
              intro _
              rw [range_succ_filterMap]
              have hfun : (fun i =>
                  (fun j => if maskBitAt mbc ws (c + j) = Option.some false
                            then Option.some (candFace (a :: b :: d :: rest) j)
                            else Option.none) (i + 1)) =
                  (fun i => if maskBitAt mbc ws (c + 1 + i) = Option.some false
                            then Option.some (candFace rest i) else Option.none) := by
                funext i
                simp only [candFace_cons_succ]
                rw [show c + (i + 1) = c + 1 + i from by omega]
              rw [hfun]
              congr 1
              rw [show c + 0 = c from rfl, candFace_cons_zero]
              by_cases hb : maskBitAt mbc ws c = Option.some false
              · rw [if_pos hb, if_pos hb]; rfl
              · rw [if_neg hb, if_neg hb]; rfl
            by_cases hbit0 : mi2.emod 2 = 0
            · rw [if_pos hbit0] at hrun
              cases hmw : markWanted total [rawIdx a, rawIdx b, rawIdx d] m with
              | error e => rw [hmw] at hrun; cases hrun
              | ok m2 =>
                rw [hmw] at hrun
                obtain ⟨hmod, hfaces⟩ := ih rest.length (by rw [← hn, hlen]; omega)
                  rest ms2 (c + 1) (mi2.ediv 2) _ m2 faces mfin rfl hpre2 hrun
                refine ⟨by rw [hlen]; omega, ?_⟩
                rw [hfaces, hdiv, hshift []]
                rw [if_pos (by rw [hbit, hbit0]; rfl)]
                simp [List.append_assoc]
            · rw [if_neg hbit0] at hrun
              obtain ⟨hmod, hfaces⟩ := ih rest.length (by rw [← hn, hlen]; omega)
                rest ms2 (c + 1) (mi2.ediv 2) acc m faces mfin rfl hpre2 hrun
              refine ⟨by rw [hlen]; omega, ?_⟩
              rw [hfaces, hdiv, hshift []]
              have hone : mi2.emod 2 = 1 := by
                rcases Int.emod_two_eq mi2 with h2 | h2
                · exact absurd h2 hbit0
                · exact h2
              rw [if_neg (by rw [hbit, hone]; simp)]
              simp

/-- Claim C1: a candidate face read from the face file appears in the
loaded mesh's face container if and only if the low bit of the current mask
word was 0 when the face was read, the mask word being right-shifted once
after every face whether or not the face was kept (that discipline is the
content of `maskPre`/`maskBitAt`): on a successful load the raw face list is
exactly the candidates (in file order) whose effective mask bit is 0, and
the mesh's face container is that list with each raw index rewritten in
place to its dense index in round 4. -/
theorem esriTin_maskFilter (inp : TinInput) (mesh : TinMesh)
    (h : DriverEsriTin.load inp = Except.ok mesh) :
    inp.faceStream.length % 3 = 0 ∧
    ∃ rawFaces mfin,
      faceLoop inp.total inp.mbc inp.faceStream inp.maskWords 0 0 []
          (List.replicate inp.total inp.total) = Except.ok (rawFaces, mfin) ∧
      rawFaces = (List.range (inp.faceStream.length / 3)).filterMap
        (fun i => if maskBitAt inp.mbc inp.maskWords i = Option.some false
                  then Option.some (candFace inp.faceStream i) else Option.none) ∧
      mesh.faces = rawFaces.map (fun f => f.map (fun fi =>
        (compact inp.total mfin 0).1.getD fi 0)) := by
  unfold DriverEsriTin.load at h
  split at h
  · cases h
  · rename_i faces m hfl
    split at h
    · cases h
    · rename_i verts hvl
      injection h with h2
      subst h2
      obtain ⟨hmod, hfaces⟩ := faceLoop_maskSpec inp.total inp.mbc inp.maskWords
        inp.faceStream.length inp.faceStream inp.maskWords 0 0 []
        (List.replicate inp.total inp.total) faces m rfl
        (maskPre_zero inp.mbc inp.maskWords) hfl
      refine ⟨hmod, faces, m, hfl, ?_, rfl⟩
      rw [hfaces, List.nil_append]
      have hfun : (fun i => if maskBitAt inp.mbc inp.maskWords (0 + i) = Option.some false
                    then Option.some (candFace inp.faceStream i) else Option.none) =
                  (fun i => if maskBitAt inp.mbc inp.maskWords i = Option.some false
                    then Option.some (candFace inp.faceStream i) else Option.none) := by
        funext i
        rw [Nat.zero_add]
      rw [hfun]

/-- A concrete successful input for the C1 witness: one candidate face,
mask bits all "keep". -/
def tinInputC1 : TinInput := ⟨3, 0, [], [1, 2, 3], [1, 2, 3, 4, 5, 6], [7, 8, 9]⟩

/-- The mesh `tinInputC1` loads to. -/
def tinMeshC1 : TinMesh := ⟨[[0, 1, 2]], [(1, 2, 7), (3, 4, 8), (5, 6, 9)]⟩

/-- Witness for C1 at the concrete input `tinInputC1`. -/
theorem esriTin_maskFilter_witness :
    tinInputC1.faceStream.length % 3 = 0 ∧
    ∃ rawFaces mfin,
      faceLoop tinInputC1.total tinInputC1.mbc tinInputC1.faceStream tinInputC1.maskWords 0 0 []
          (List.replicate tinInputC1.total tinInputC1.total) = Except.ok (rawFaces, mfin) ∧
      rawFaces = (List.range (tinInputC1.faceStream.length / 3)).filterMap
        (fun i => if maskBitAt tinInputC1.mbc tinInputC1.maskWords i = Option.some false
                  then Option.some (candFace tinInputC1.faceStream i) else Option.none) ∧
      tinMeshC1.faces = rawFaces.map (fun f => f.map (fun fi =>
        (compact tinInputC1.total mfin 0).1.getD fi 0)) :=
  esriTin_maskFilter tinInputC1 tinMeshC1 rfl

/-! ### Claim C8: the probe -/

theorem canReadMesh_nil : Driver2dm.canReadMesh [] = false := rfl

theorem canReadMesh_empty_line (rest : List (List Char)) :
    Driver2dm.canReadMesh ([] :: rest) = Driver2dm.canReadMesh rest := rfl

theorem canReadMesh_cons (x : Char) (xs : List Char) (rest : List (List Char)) :
    Driver2dm.canReadMesh ((x :: xs) :: rest) = headerTok.isPrefixOf (x :: xs) := rfl

/-- Amended claim C8: the probe reads the first non-empty line and succeeds
if and only if that line STARTS WITH the recognized header token `MESH2D`
(`startsWith`, not exact equality — see the counterexample for a line that
merely extends the token). -/
theorem driver2dm_probe (lines : List (List Char)) :
    Driver2dm.canReadMesh lines = true ↔
      ∃ pre l post, lines = pre ++ l :: post ∧ (∀ p ∈ pre, p = []) ∧ l ≠ [] ∧
        headerTok.isPrefixOf l = true := by
  induction lines with
  | nil =>
    rw [canReadMesh_nil]
    constructor
    · intro h; cases h
    · rintro ⟨pre, l, post, heq, -, -, -⟩
      cases pre <;> simp at heq
  | cons a rest ih =>
    cases a with
    | nil =>
      rw [canReadMesh_empty_line, ih]
      constructor
      · rintro ⟨pre, l, post, heq, hpre, hl, hp⟩
        refine ⟨[] :: pre, l, post, by rw [heq]; rfl, ?_, hl, hp⟩
        intro p hp2
        rcases List.mem_cons.mp hp2 with h1 | h2
        · exact h1
        · exact hpre p h2
      · rintro ⟨pre, l, post, heq, hpre, hl, hp⟩
        cases pre with
        | nil =>
          rw [List.nil_append] at heq
          injection heq with h1 h2
          exact absurd h1.symm hl
        | cons q pre2 =>
          rw [List.cons_append] at heq
          injection heq with h1 h2
          exact ⟨pre2, l, post, h2, fun p hp2 => hpre p (List.mem_cons_of_mem q hp2), hl, hp⟩
    | cons x xs =>
      rw [canReadMesh_cons]
      constructor
      · intro h
        refine ⟨[], x :: xs, rest, rfl, ?_, ?_, h⟩
        · intro p hp2
          cases hp2
        · intro hc
          cases hc
      · rintro ⟨pre, l, post, heq, hpre, hl, hp⟩
        cases pre with
        | nil =>
          rw [List.nil_append] at heq
          injection heq with h1 h2
          rw [h1]
          exact hp
        | cons q pre2 =>
          rw [List.cons_append] at heq
          injection heq with h1 h2
          have hq : q = [] := hpre q (List.mem_cons_self q pre2)
          rw [hq] at h1
          cases h1

/-- Counterexample to claim C8 as stated: a file whose first non-empty line
is `MESH2DX` — not the exact header token — is accepted by the probe,
because `canReadMesh` only checks `startsWith(line, "MESH2D")`. -/
theorem driver2dm_probe_counterexample :
    Driver2dm.canReadMesh [['M', 'E', 'S', 'H', '2', 'D', 'X']] = true ∧
    getHeaderLine [['M', 'E', 'S', 'H', '2', 'D', 'X']] =
      Option.some ['M', 'E', 'S', 'H', '2', 'D', 'X'] ∧
    (['M', 'E', 'S', 'H', '2', 'D', 'X'] : List Char) ≠ headerTok := by
  refine ⟨by decide, by decide, by decide⟩

/-! ### Counting-pass lemmas (claims C4, C7, C3) -/

theorem countPass_no_unsup :
    ∀ (lines : List Line2dm), lines.all (fun l => !isUnsupported l) = true →
      countPass lines = Except.ok (lines.countP (fun l => isE3T l || isE4Q l),
        lines.countP isND, lines.countP isE2L) := by
  intro lines
  induction lines with
  | nil => intro _; rfl
  | cons l rest ih =>
    intro hall
    rw [List.all_cons] at hall
    have h1 : isUnsupported l = false := by
      cases hu : isUnsupported l
      · rfl
      · rw [hu] at hall; simp at hall
    have h2 : rest.all (fun l => !isUnsupported l) = true := by
      cases ha : rest.all (fun l => !isUnsupported l)
      · rw [ha] at hall; simp at hall
      · rfl
    simp only [countPass]
    rw [if_neg (by simp [h1]), ih h2]
    simp only [List.countP_cons, Except.ok.injEq, Prod.mk.injEq]

theorem countPass_unsup :
    ∀ (lines : List Line2dm), lines.any isUnsupported = true →
      countPass lines = Except.error MDAL_Status.Err_UnsupportedElement := by
  intro lines
  induction lines with
  | nil => intro h; cases h
  | cons l rest ih =>
    intro hany
    rw [List.any_cons] at hany
    simp only [countPass]
    cases hu : isUnsupported l with
    | true => rw [if_pos rfl]
    | false =>
      rw [if_neg (by simp)]
      rw [hu] at hany
      simp only [Bool.false_or] at hany
      rw [ih hany]

theorem countPass_counts (lines : List Line2dm) (fc vc ec : Nat)
    (h : countPass lines = Except.ok (fc, vc, ec)) :
    fc = lines.countP (fun l => isE3T l || isE4Q l) ∧
    vc = lines.countP isND ∧ ec = lines.countP isE2L := by
  by_cases hany : lines.any isUnsupported = true
  · rw [countPass_unsup lines hany] at h; cases h
  · have hall : lines.all (fun l => !isUnsupported l) = true := by
      rw [List.all_eq_true]
      intro x hx
      cases hu : isUnsupported x
      · rfl
      · exact absurd (List.any_eq_true.mpr ⟨x, hx, hu⟩) hany
    rw [countPass_no_unsup lines hall] at h
    simp only [Except.ok.injEq, Prod.mk.injEq] at h
    exact ⟨h.1.symm, h.2.1.symm, h.2.2.symm⟩

theorem countP_or_split :
    ∀ (lines : List Line2dm),
      lines.countP (fun l => isE3T l || isE4Q l) =
        lines.countP isE3T + lines.countP isE4Q := by
  intro lines
  induction lines with
  | nil => rfl
  | cons l rest ih =>
    simp only [List.countP_cons, ih]
    cases l <;> simp [isE3T, isE4Q] <;> omega

/-! ### Parsing-pass lemmas -/

theorem parsePass_lengths (fcount : Nat) :
    ∀ (lines : List Line2dm) (st : Parse2dmState) (ws : List MDAL_Status)
      (st2 : Parse2dmState) (ws2 : List MDAL_Status),
      parsePass fcount lines st ws = Except.ok (st2, ws2) →
      st2.vertices.length = st.vertices.length ∧
      st2.edges.length = st.edges.length ∧
      st2.faces.length = st.faces.length := by
  intro lines
  induction lines with
  | nil =>
    intro st ws st2 ws2 h
    simp only [parsePass] at h
    injection h with h2
    injection h2 with h3 h4
    rw [← h3]
    exact ⟨rfl, rfl, rfl⟩
  | cons l rest ih =>
    intro st ws st2 ws2 h
    cases l with
    | nd id x y z =>
      simp only [parsePass] at h
      by_cases hcond : id ≠ 0 ∧ st.lastVertexID ≠ 0 ∧ id ≤ st.lastVertexID
      · rw [if_pos hcond] at h; cases h
      · rw [if_neg hcond] at h
        have := ih _ _ st2 ws2 h
        simpa [List.length_set] using this
    | e3t fid v1 v2 v3 mat el =>
      simp only [parsePass] at h
      have := ih _ _ st2 ws2 h
      simpa [List.length_set] using this
    | e4q fid v1 v2 v3 v4 mat el =>
      simp only [parsePass] at h
      have := ih _ _ st2 ws2 h
      simpa [List.length_set] using this
    | e2l eid a b mat =>
      simp only [parsePass] at h
      have := ih _ _ st2 ws2 h
      simpa [List.length_set] using this
    | e3l => exact ih _ _ st2 ws2 h
    | e6t => exact ih _ _ st2 ws2 h
    | e8q => exact ih _ _ st2 ws2 h
    | e9q => exact ih _ _ st2 ws2 h
    | other => exact ih _ _ st2 ws2 h

/-! ### Claim C4: unsupported element tokens -/

/-- Amended claim C4: for every input that passes the header check (its
first line starts with `MESH2D`), a line starting with one of the
unsupported element tokens `E3L`/`E6T`/`E8Q`/`E9Q` anywhere in the body
makes the load abort with `Err_UnsupportedElement` and return no mesh.
(Without the header clause the claim fails: see the counterexample, where
the same body yields `Err_UnknownFormat` instead.) -/
theorem driver2dm_unsupportedElement (f : File2dm) (hdr : List Char)
    (hh : f.header = Option.some hdr) (hp : headerTok.isPrefixOf hdr = true)
    (hu : f.lines.any isUnsupported = true) :
    Driver2dm.load f = Except.error MDAL_Status.Err_UnsupportedElement := by
  have hc := countPass_unsup f.lines hu
  simp only [Driver2dm.load, hh, hc]
  rw [if_pos hp]

/-- Witness for the amended C4: a proper header followed by an `E6T` line. -/
theorem driver2dm_unsupportedElement_witness :
    Driver2dm.load ⟨Option.some headerTok, [Line2dm.e6t]⟩ =
      Except.error MDAL_Status.Err_UnsupportedElement :=
  driver2dm_unsupportedElement ⟨Option.some headerTok, [Line2dm.e6t]⟩ headerTok rfl
    (by decide) rfl

/-- Counterexample to claim C4 as stated: a file whose first line is not a
`MESH2D` header but whose body contains an `E6T` line.  The input contains
an unsupported element token, yet the load aborts with `Err_UnknownFormat`
(the header check fires first), not with `Err_UnsupportedElement`. -/
theorem driver2dm_c4_counterexample :
    (File2dm.mk (Option.some ['N', 'D']) [Line2dm.e6t]).lines.any isUnsupported = true ∧
    Driver2dm.load ⟨Option.some ['N', 'D'], [Line2dm.e6t]⟩ =
      Except.error MDAL_Status.Err_UnknownFormat ∧
    MDAL_Status.Err_UnknownFormat ≠ MDAL_Status.Err_UnsupportedElement := by
  refine ⟨rfl, rfl, by decide⟩

/-! ### Claim C7: entity counts after a successful load -/

/-- Claim C7: after a successful load, the vertex container is as long as
the number of `ND` lines, the face container as long as the number of
`E3T` plus `E4Q` lines, and the edge container as long as the number of
`E2L` lines (the containers are pre-sized by the counting pass and their
lengths are preserved by the parsing and resolution passes). -/
theorem driver2dm_counts (f : File2dm) (mesh : Mesh2dm) (ws : List MDAL_Status)
    (h : Driver2dm.load f = Except.ok (mesh, ws)) :
    mesh.vertices.length = f.lines.countP isND ∧
    mesh.faces.length = f.lines.countP isE3T + f.lines.countP isE4Q ∧
    mesh.edges.length = f.lines.countP isE2L := by
  unfold Driver2dm.load at h
  split at h
  · cases h
  · split at h
    · split at h
      · cases h
      · rename_i fc vc ec hcp
        split at h
        · cases h
        · rename_i st ws0 hpp
          injection h with h2
          injection h2 with hm hw
          subst hm
          obtain ⟨hv, he, hf⟩ := parsePass_lengths fc f.lines _ [] st ws0 hpp
          obtain ⟨hfc, hvc, hec⟩ := countPass_counts f.lines fc vc ec hcp
          refine ⟨?_, ?_, ?_⟩
          · show st.vertices.length = _
            rw [hv]
            simp only [List.length_replicate]
            rw [hvc]
          · show (resolveFaces st.vertexIDtoIndex st.vertices.length st.faces).1.length = _
            simp only [resolveFaces, List.length_map]
            rw [hf]
            simp only [List.length_replicate]
            rw [hfc, countP_or_split]
          · show st.edges.length = _
            rw [he]
            simp only [List.length_replicate]
            rw [hec]
    · cases h

/-- Scenario A input: 3 vertices and one triangle. -/
def file2dmC7 : File2dm :=
  ⟨Option.some headerTok,
   [Line2dm.nd 1 0 0 0, Line2dm.nd 2 1 0 0, Line2dm.nd 3 0 1 0,
    Line2dm.e3t 1 1 2 3 0 Option.none]⟩

/-- The mesh Scenario A loads to: 3 vertices, one face `[0, 1, 2]`. -/
def mesh2dmC7 : Mesh2dm := ⟨[(0, 0, 0), (1, 0, 0), (0, 1, 0)], [], [[0, 1, 2]], []⟩

/-- Witness for C7 at the Scenario A input. -/
theorem driver2dm_counts_witness :
    mesh2dmC7.vertices.length = file2dmC7.lines.countP isND ∧
    mesh2dmC7.faces.length = file2dmC7.lines.countP isE3T + file2dmC7.lines.countP isE4Q ∧
    mesh2dmC7.edges.length = file2dmC7.lines.countP isE2L :=
  driver2dm_counts file2dmC7 mesh2dmC7 [] rfl

/-! ### Claim C9: ID resolution with identity fallback -/

/-- Claim C9: a vertex ID absent from the ID→index map resolves to the ID
itself, both in `Mesh2dm::vertexIndex` (first conjunct) and in the face
resolution pass (`resolveNode`, second conjunct), where an absent ID
additionally raises the non-fatal invalid-node flag exactly when it exceeds
the vertex count; the third conjunct shows the resolution pass never aborts
the load: whenever the counting and parsing passes succeed, the load
returns a mesh (with the resolution warnings appended). -/
theorem mesh2dm_idResolution :
    (∀ (mesh : Mesh2dm) (vertexID : Nat),
      mesh.mVertexIDtoIndex.lookup vertexID = Option.none →
      mesh.vertexIndex vertexID = vertexID) ∧
    (∀ (mMap : List (Nat × Nat)) (nVerts nodeID : Nat),
      mMap.lookup nodeID = Option.none →
      (resolveNode mMap nVerts nodeID).1 = nodeID ∧
      ((resolveNode mMap nVerts nodeID).2 = true ↔ nVerts < nodeID)) ∧
    (∀ (f : File2dm) (hdr : List Char) (fc vc ec : Nat) (st : Parse2dmState)
       (ws : List MDAL_Status),
      f.header = Option.some hdr → headerTok.isPrefixOf hdr = true →
      countPass f.lines = Except.ok (fc, vc, ec) →
      parsePass fc f.lines
        ⟨0, 0, 0, [], 0, List.replicate vc (0, 0, 0), List.replicate ec (0, 0),
         List.replicate fc [], Option.none⟩ [] = Except.ok (st, ws) →
      Driver2dm.load f = Except.ok
        (⟨st.vertices, st.edges,
          (resolveFaces st.vertexIDtoIndex st.vertices.length st.faces).1,
          st.vertexIDtoIndex⟩,
         ws ++ (resolveFaces st.vertexIDtoIndex st.vertices.length st.faces).2)) := by
  refine ⟨?_, ?_, ?_⟩
  · intro mesh vertexID h
    simp [Mesh2dm.vertexIndex, h]
  · intro mMap nVerts nodeID h
    simp [resolveNode, h]
  · intro f hdr fc vc ec st ws hh hp hcp hpp
    simp only [Driver2dm.load, hh, hcp, hpp]
    rw [if_pos hp]

/-- Input for the C9 witness: one vertex and a face referencing the absent
ID 8 (from file token 9), which exceeds the vertex count. -/
def file2dmC9 : File2dm :=
  ⟨Option.some headerTok, [Line2dm.nd 1 0 0 0, Line2dm.e3t 1 1 2 9 0 Option.none]⟩

/-- The parsing-pass state `file2dmC9` produces. -/
def stC9 : Parse2dmState := ⟨1, 1, 0, [], 1, [(0, 0, 0)], [], [[0, 1, 8]], Option.none⟩

/-- Witness for C9: identity fallback on an empty map, warning iff the ID
exceeds the vertex count, and a load that continues to a mesh. -/
theorem mesh2dm_idResolution_witness :
    Mesh2dm.vertexIndex ⟨[], [], [], []⟩ 7 = 7 ∧
    ((resolveNode [] 3 9).1 = 9 ∧ ((resolveNode [] 3 9).2 = true ↔ 3 < 9)) ∧
    Driver2dm.load file2dmC9 = Except.ok
      (⟨stC9.vertices, stC9.edges,
        (resolveFaces stC9.vertexIDtoIndex stC9.vertices.length stC9.faces).1,
        stC9.vertexIDtoIndex⟩,
       [] ++ (resolveFaces stC9.vertexIDtoIndex stC9.vertices.length stC9.faces).2) :=
  ⟨mesh2dm_idResolution.1 ⟨[], [], [], []⟩ 7 rfl,
   mesh2dm_idResolution.2.1 [] 3 9 rfl,
   mesh2dm_idResolution.2.2 file2dmC9 headerTok 1 1 0 stC9 [] rfl (by decide) rfl rfl⟩

/-! ### Claim C3: the node-ID ordering invariant -/

theorem nonzeroNDids_pos :
    ∀ (lines : List Line2dm), ∀ x ∈ nonzeroNDids lines, 0 < x := by
  intro lines
  induction lines with
  | nil => intro x hx; cases hx
  | cons l rest ih =>
    intro x hx
    cases l with
    | nd id x0 y0 z0 =>
      simp only [nonzeroNDids] at hx
      by_cases hid : id = 0
      · rw [if_neg (by simp [hid])] at hx
        exact ih x hx
      · rw [if_pos hid] at hx
        rcases List.mem_cons.mp hx with rfl | hx2
        · omega
        · exact ih x hx2
    | e3t a b c d e f2 => exact ih x hx
    | e4q a b c d e f2 g => exact ih x hx
    | e2l a b c d => exact ih x hx
    | e3l => exact ih x hx
    | e6t => exact ih x hx
    | e8q => exact ih x hx
    | e9q => exact ih x hx
    | other => exact ih x hx

theorem idsOK_iff_chain :
    ∀ (ids : List Nat) (last : Nat), (∀ x ∈ ids, 0 < x) →
      (idsOK last ids = true ↔
        (List.Chain' (· < ·) ids ∧ (last ≠ 0 → ∀ y ∈ ids.head?, last < y))) := by
  intro ids
  induction ids with
  | nil =>
    intro last hpos
    simp [idsOK]
  | cons id rest ih =>
    intro last hpos
    have hid : 0 < id := hpos id (List.mem_cons_self id rest)
    simp only [idsOK]
    by_cases hc : last ≠ 0 ∧ id ≤ last
    · rw [if_pos hc]
      constructor
      · intro h; cases h
      · rintro ⟨-, h2⟩
        have h3 := h2 hc.1 id (by simp)
        have h4 := hc.2
        omega
    · rw [if_neg hc]
      rw [ih id (fun x hx => hpos x (List.mem_cons_of_mem id hx))]
      rw [List.chain'_cons']
      constructor
      · rintro ⟨hch, hhd⟩
        refine ⟨⟨hhd (by omega), hch⟩, ?_⟩
        intro hlast y hy
        have hyid : id = y := by simpa using hy
        subst hyid
        have hnle : ¬ id ≤ last := fun hle => hc ⟨hlast, hle⟩
        omega
      · rintro ⟨⟨hhd, hch⟩, _⟩
        exact ⟨hch, fun _ => hhd⟩

/-- The parsing pass succeeds exactly when the non-zero node IDs respect
the ordering discipline, and its only failure is `Err_InvalidData`. -/
theorem parsePass_ordering (fcount : Nat) :
    ∀ (lines : List Line2dm) (st : Parse2dmState) (ws : List MDAL_Status),
      (idsOK st.lastVertexID (nonzeroNDids lines) = true →
        ∃ st2 ws2, parsePass fcount lines st ws = Except.ok (st2, ws2)) ∧
      (idsOK st.lastVertexID (nonzeroNDids lines) = false →
        parsePass fcount lines st ws = Except.error MDAL_Status.Err_InvalidData) := by
  intro lines
  induction lines with
  | nil =>
    intro st ws
    refine ⟨fun _ => ⟨st, ws, rfl⟩, fun h => ?_⟩
    simp [nonzeroNDids, idsOK] at h
  | cons l rest ih =>
    intro st ws
    cases l with
    | nd id x y z =>
      simp only [parsePass, nonzeroNDids]
      by_cases hid : id = 0
      · subst hid
        rw [if_neg (show ¬((0 : Nat) ≠ 0 ∧ st.lastVertexID ≠ 0 ∧ 0 ≤ st.lastVertexID)
              from by simp)]
        rw [if_neg (show ¬((0 : Nat) ≠ 0) from by simp)]
        exact ih
          { st with
            vertexIDtoIndex := (parseVertexIdGaps st.vertexIDtoIndex st.vertexIndex (sub1sz 0)).1,
            lastVertexID := st.lastVertexID,
            vertices := st.vertices.set st.vertexIndex (x, y, z),
            vertexIndex := st.vertexIndex + 1 }
          (if (parseVertexIdGaps st.vertexIDtoIndex st.vertexIndex (sub1sz 0)).2 then
            ws ++ [MDAL_Status.Warn_ElementNotUnique] else ws)
      · rw [if_pos hid]
        by_cases herr : st.lastVertexID ≠ 0 ∧ id ≤ st.lastVertexID
        · rw [if_pos ⟨hid, herr⟩]
          simp only [idsOK]
          rw [if_pos herr]
          constructor
          · intro h
            cases h
          · intro _
            trivial
        · rw [if_neg (fun hA => herr hA.2)]
          rw [if_pos hid]
          simp only [idsOK]
          rw [if_neg herr]
          exact ih
            { st with
              vertexIDtoIndex :=
                (parseVertexIdGaps st.vertexIDtoIndex st.vertexIndex (sub1sz id)).1,
              lastVertexID := id,
              vertices := st.vertices.set st.vertexIndex (x, y, z),
              vertexIndex := st.vertexIndex + 1 }
            (if (parseVertexIdGaps st.vertexIDtoIndex st.vertexIndex (sub1sz id)).2 then
              ws ++ [MDAL_Status.Warn_ElementNotUnique] else ws)
    | e3t fid v1 v2 v3 mat el =>
      exact ih
        { st with
          faces := st.faces.set st.faceIndex [sub1sz v1, sub1sz v2, sub1sz v3],
          elev := setElev fcount st.elev st.faceIndex el,
          faceIndex := st.faceIndex + 1 } ws
    | e4q fid v1 v2 v3 v4 mat el =>
      exact ih
        { st with
          faces := st.faces.set st.faceIndex [sub1sz v1, sub1sz v2, sub1sz v3, sub1sz v4],
          elev := setElev fcount st.elev st.faceIndex el,
          faceIndex := st.faceIndex + 1 } ws
    | e2l eid a b mat =>
      exact ih
        { st with
          edges := st.edges.set st.edgeIndex (sub1sz a, sub1sz b),
          edgeIndex := st.edgeIndex + 1 } ws
    | e3l => exact ih st ws
    | e6t => exact ih st ws
    | e8q => exact ih st ws
    | e9q => exact ih st ws
    | other => exact ih st ws

/-- Amended claim C3: for every input that passes the header check and
contains no unsupported element line, a non-zero node ID less than or equal
to a previously seen non-zero node ID makes the load fail with
`Err_InvalidData` (the status realizing the spec's CorruptData kind) and
return no mesh (second conjunct); conversely every successful load's
sequence of non-zero node IDs is strictly increasing (first conjunct).
Without the no-unsupported-line clause the claim fails: see the
counterexample, where the counting pass aborts first with
`Err_UnsupportedElement`. -/
theorem driver2dm_nodeOrdering (f : File2dm) (hdr : List Char)
    (hh : f.header = Option.some hdr) (hp : headerTok.isPrefixOf hdr = true)
    (hnu : f.lines.all (fun l => !isUnsupported l) = true) :
    (∀ mesh ws, Driver2dm.load f = Except.ok (mesh, ws) →
      List.Pairwise (· < ·) (nonzeroNDids f.lines)) ∧
    (¬ List.Pairwise (· < ·) (nonzeroNDids f.lines) →
      Driver2dm.load f = Except.error MDAL_Status.Err_InvalidData) := by
  have hcp := countPass_no_unsup f.lines hnu
  have hpos := nonzeroNDids_pos f.lines
  have hiff2 : idsOK 0 (nonzeroNDids f.lines) = true ↔
      List.Pairwise (· < ·) (nonzeroNDids f.lines) := by
    rw [idsOK_iff_chain (nonzeroNDids f.lines) 0 hpos, List.chain'_iff_pairwise]
    constructor
    · rintro ⟨h1, -⟩
      exact h1
    · intro h1
      exact ⟨h1, fun h0 => absurd rfl h0⟩
  have hps := parsePass_ordering (f.lines.countP (fun l => isE3T l || isE4Q l)) f.lines
    ⟨0, 0, 0, [], 0, List.replicate (f.lines.countP isND) (0, 0, 0),
     List.replicate (f.lines.countP isE2L) (0, 0),
     List.replicate (f.lines.countP (fun l => isE3T l || isE4Q l)) [], Option.none⟩ []
  constructor
  · intro mesh ws hok
    by_cases hids : idsOK 0 (nonzeroNDids f.lines) = true
    · exact hiff2.mp hids
    · have hfalse : idsOK 0 (nonzeroNDids f.lines) = false := by
        cases hb : idsOK 0 (nonzeroNDids f.lines)
        · rfl
        · exact absurd hb hids
      have herr := hps.2 hfalse
      have hload : Driver2dm.load f = Except.error MDAL_Status.Err_InvalidData := by
        simp only [Driver2dm.load, hh, hcp, herr]
        rw [if_pos hp]
      rw [hload] at hok
      cases hok
  · intro hnp
    have hfalse : idsOK 0 (nonzeroNDids f.lines) = false := by
      cases hb : idsOK 0 (nonzeroNDids f.lines)
      · rfl
      · exact absurd (hiff2.mp hb) hnp
    have herr := hps.2 hfalse
    simp only [Driver2dm.load, hh, hcp, herr]
    rw [if_pos hp]

/-- Counterexample to claim C3 as stated: an input whose ND lines violate
the ordering invariant (non-zero IDs 2 then 1) but which also contains an
`E6T` line.  The load fails, but with `Err_UnsupportedElement` from the
counting pass, not with the CorruptData-kind `Err_InvalidData` the claim
requires for every such input. -/
theorem driver2dm_c3_counterexample :
    ¬ List.Pairwise (· < ·)
        (nonzeroNDids [Line2dm.e6t, Line2dm.nd 2 0 0 0, Line2dm.nd 1 0 0 0]) ∧
    Driver2dm.load ⟨Option.some headerTok,
        [Line2dm.e6t, Line2dm.nd 2 0 0 0, Line2dm.nd 1 0 0 0]⟩ =
      Except.error MDAL_Status.Err_UnsupportedElement ∧
    MDAL_Status.Err_UnsupportedElement ≠ MDAL_Status.Err_InvalidData := by
  refine ⟨by decide, rfl, by decide⟩

/-- Witness for the amended C3: a proper header, no unsupported lines, and
out-of-order non-zero node IDs 2 then 1. -/
theorem driver2dm_nodeOrdering_witness :
    Driver2dm.load ⟨Option.some headerTok,
        [Line2dm.nd 2 0 0 0, Line2dm.nd 1 0 0 0]⟩ =
      Except.error MDAL_Status.Err_InvalidData :=
  (driver2dm_nodeOrdering ⟨Option.some headerTok,
      [Line2dm.nd 2 0 0 0, Line2dm.nd 1 0 0 0]⟩ headerTok rfl (by decide) (by decide)).2
    (by decide)
